import Mathlib

/-!
Verification of the vckit-db-tools core: the secret-cipher (SecretBox) and
key-rotation pipeline from rotate-key.ts, and the snapshot/restore engine from
backup-restore.ts.

Modelling conventions:
- JavaScript strings are modelled as `List Char`.
- Byte sequences (Node Buffer / Uint8Array contents) are modelled as
  `List (Fin 256)`.
- The tweetnacl primitives (secretbox, secretbox.open) and Node UTF-8
  encoding are external libraries, not code of this repository; they are
  modelled by a structure `NaclModel` whose fields carry their documented
  contract (authenticated-encryption correctness, authentication failure
  under a different key, UTF-8 round-trip on well-formed strings). All
  theorems about the cipher quantify over any model satisfying the contract,
  and a concrete instance `idModel` shows the contract is satisfiable.
- Stateful code (the rotation loop with its per-row UPDATE statements, the
  restore replay loop) is modelled by explicit state passing: the
  private-key table is a list of rows threaded through the loop, statement
  execution is an explicit oracle `List Char → Except (List Char) Unit`.
-/

/-- Bytes are natural numbers below 256. -/
abbrev Byte := Fin 256

/-- Convert a Lean string literal to the `List Char` representation used for
JavaScript strings throughout this development. -/
def sl (s : String) : List Char := s.data

/-- Single-quote character (codepoint 39), used in SQL literal rendering. -/
def sqc : Char := Char.ofNat 39

/-- Lower-case hex digit for a value below 16, as produced by Node
Buffer.toString with hex encoding (digits then lower-case letters). -/
def hexDigitChar (v : Nat) : Char :=
  if v < 10 then Char.ofNat (48 + v) else Char.ofNat (87 + v)

/-- Value of one hex digit character: accepts 0-9, a-f, A-F, as Node hex
decoding does; anything else is not a hex digit. -/
def hexDigVal (c : Char) : Option (Fin 16) :=
  if h : 48 ≤ c.toNat ∧ c.toNat ≤ 57 then some ⟨c.toNat - 48, by omega⟩
  else if h : 97 ≤ c.toNat ∧ c.toNat ≤ 102 then some ⟨c.toNat - 87, by omega⟩
  else if h : 65 ≤ c.toNat ∧ c.toNat ≤ 70 then some ⟨c.toNat - 55, by omega⟩
  else none

/-- Hex-encode a byte sequence, two lower-case digits per byte: the model of
Buffer.prototype.toString with hex encoding. -/
def hexEncode (bs : List Byte) : List Char :=
  bs.flatMap fun b => [hexDigitChar (b.val / 16), hexDigitChar (b.val % 16)]

/-- Hex-decode a character sequence pairwise, truncating at the first
incomplete or invalid pair: the model of Buffer.from with hex encoding. -/
def hexDecode : List Char → List Byte
  | c1 :: c2 :: rest =>
    match hexDigVal c1, hexDigVal c2 with
    | some h, some l =>
      ⟨h.val * 16 + l.val, by have hh := h.isLt; have hl := l.isLt; omega⟩ :: hexDecode rest
    | _, _ => []
  | _ => []

/-- Character class of the key-validation regular expression
(caret)[a-fA-F0-9]{64}(dollar) in rotate-key.ts. -/
def isHexChar (c : Char) : Bool :=
  (97 ≤ c.toNat && c.toNat ≤ 102) || (65 ≤ c.toNat && c.toNat ≤ 70) ||
    (48 ≤ c.toNat && c.toNat ≤ 57)

/-- Test of the full key-format regular expression: exactly 64 hex
characters. -/
def isHex64 (s : List Char) : Bool :=
  s.length = 64 && s.all isHexChar

/-- Nonce length constant NONCE_BYTES from rotate-key.ts. -/
def NONCE_BYTES : Nat := 24

/-- Contract of the external libraries used by the SecretBox class: the
tweetnacl secretbox primitives and the Node UTF-8 codec. The two secretbox
laws are the documented behaviour of an authenticated cipher: opening a box
with the key that sealed it yields the message, opening it with any other
key fails (authentication). The UTF-8 law is the Buffer round-trip on
well-formed strings. -/
structure NaclModel where
  secretbox : List Byte → List Byte → List Byte → List Byte
  secretboxOpen : List Byte → List Byte → List Byte → Option (List Byte)
  utf8Encode : List Char → List Byte
  utf8Decode : List Byte → List Char
  open_box : ∀ m n k, secretboxOpen (secretbox m n k) n k = some m
  open_wrong_key : ∀ m n k k2, k ≠ k2 → secretboxOpen (secretbox m n k) n k2 = none
  utf8_roundtrip : ∀ s, utf8Decode (utf8Encode s) = s

/-- SecretBox state: the secret key bytes stored by the constructor. -/
structure SecretBox where
  secretKey : List Byte

/-- SecretBox constructor: Buffer.from(secretKeyHex, hex). -/
def SecretBox.ofHex (secretKeyHex : List Char) : SecretBox :=
  ⟨hexDecode secretKeyHex⟩

/-- SecretBox.encrypt: seal the UTF-8 bytes of the message under the stored
key with the given fresh nonce, prepend the nonce, hex-encode. The nonce is
drawn by nacl.randomBytes in the source and is passed explicitly here. -/
def SecretBox.encrypt (L : NaclModel) (box : SecretBox) (nonce : List Byte)
    (message : List Char) : List Char :=
  hexEncode (nonce ++ L.secretbox (L.utf8Encode message) nonce box.secretKey)

/-- SecretBox.decrypt: hex-decode, split off the 24-byte nonce, open the
box; a failed open throws the decryption error, a successful open is decoded
as UTF-8. -/
def SecretBox.decrypt (L : NaclModel) (box : SecretBox)
    (encryptedHex : List Char) : Except (List Char) (List Char) :=
  let combined := hexDecode encryptedHex
  match L.secretboxOpen (combined.drop NONCE_BYTES) (combined.take NONCE_BYTES)
      box.secretKey with
  | none => .error (sl "Decryption failed - wrong key or corrupted data")
  | some d => .ok (L.utf8Decode d)

/-- Row of the private-key table as fetched by the rotation query
(SELECT alias, type, privateKeyHex). The field named type in the source is
called typeTag here because type is reserved in Lean. -/
structure SecretRow where
  rowAlias : List Char
  typeTag : List Char
  privateKeyHex : List Char
deriving DecidableEq

/-- Result shape of rotateEncryptionKey (RotateKeyResult in types.ts). -/
structure RotateKeyResult where
  success : Nat
  errors : Nat
deriving DecidableEq

/-- Entry of the per-record error list built inside the rotation loop:
shortened alias plus the caught error message. -/
structure RotateErr where
  errAlias : List Char
  message : List Char
deriving DecidableEq

/-- Observable database effects of the rotation pipeline, in order of
occurrence: session establishment, the single SELECT over the private-key
table, and one UPDATE per successfully re-encrypted row. -/
inductive DbEffect where
  | connect : DbEffect
  | fetchRows : DbEffect
  | update (updAlias newHex : List Char) : DbEffect
deriving DecidableEq

/-- State returned by the rotation loop: the private-key table after the
updates performed so far, the update effects emitted, the success and error
counters, and the collected per-record errors. -/
structure LoopOut where
  db : List SecretRow
  trace : List DbEffect
  success : Nat
  errors : Nat
  errs : List RotateErr
deriving DecidableEq

/-- Shortened alias used in rotation error reports: first 20 characters
plus an ellipsis when the alias is longer than 20 characters. -/
def shortAlias (a : List Char) : List Char :=
  a.take 20 ++ (if 20 < a.length then sl "..." else [])

/-- Model of the UPDATE statement keyed by alias: every row whose alias
matches gets the new ciphertext, all other rows are untouched. -/
def updateByAlias (db : List SecretRow) (a newHex : List Char) : List SecretRow :=
  db.map fun r => if r.rowAlias = a then { r with privateKeyHex := newHex } else r

/-- Body of the try block of the rotation loop for one fetched row: decrypt
under the old key, re-encrypt under the new key with the fresh nonce, verify
the round-trip, and either succeed with the new ciphertext or fail with the
message of the error that would be thrown. -/
def processRow (L : NaclModel) (oldBox newBox : SecretBox) (nonce : List Byte)
    (privateKeyHex : List Char) : Except (List Char) (List Char) :=
  match SecretBox.decrypt L oldBox privateKeyHex with
  | .error m => .error m
  | .ok decrypted =>
    let reencrypted := SecretBox.encrypt L newBox nonce decrypted
    match SecretBox.decrypt L newBox reencrypted with
    | .error m => .error m
    | .ok verify =>
      if verify ≠ decrypted then
        .error (sl "Verification failed - encryption round-trip mismatch")
      else .ok reencrypted

/-- Rotation loop over the fetched rows. The first list argument after the
index is the current state of the private-key table (mutated by the UPDATE
of each successful row), the second is the remaining fetched rows; the index
selects the fresh nonce drawn for each encryption. A failing row adds its
shortened alias and message to the error list and the loop continues. -/
def rotateLoop (L : NaclModel) (oldBox newBox : SecretBox) (nonce : Nat → List Byte) :
    Nat → List SecretRow → List SecretRow → LoopOut
  | _, db, [] => ⟨db, [], 0, 0, []⟩
  | i, db, row :: rest =>
    match processRow L oldBox newBox (nonce i) row.privateKeyHex with
    | .ok newHex =>
      let out := rotateLoop L oldBox newBox nonce (i + 1)
        (updateByAlias db row.rowAlias newHex) rest
      ⟨out.db, .update row.rowAlias newHex :: out.trace, out.success + 1, out.errors, out.errs⟩
    | .error m =>
      let out := rotateLoop L oldBox newBox nonce (i + 1) db rest
      ⟨out.db, out.trace, out.success, out.errors + 1, ⟨shortAlias row.rowAlias, m⟩ :: out.errs⟩

/-- Model of rotateEncryptionKey. Inputs: the library model, the nonce
stream, the two keys as strings, and the current private-key table (the rows
the SELECT would return). Output: the table after the run, the database
effects in order, and either the returned RotateKeyResult or the message of
the thrown error. -/
def rotateEncryptionKey (L : NaclModel) (nonce : Nat → List Byte)
    (oldKey newKey : List Char) (db : List SecretRow) :
    List SecretRow × List DbEffect × Except (List Char) RotateKeyResult :=
  if ¬ isHex64 oldKey then (db, [], .error (sl "OLD_KEY must be 64 hex characters"))
  else if ¬ isHex64 newKey then (db, [], .error (sl "NEW_KEY must be 64 hex characters"))
  else
    let oldBox := SecretBox.ofHex oldKey
    let newBox := SecretBox.ofHex newKey
    if db.length = 0 then (db, [.connect, .fetchRows], .ok ⟨0, 0⟩)
    else
      let out := rotateLoop L oldBox newBox nonce 0 db db
      if 0 < out.errors then
        (out.db, .connect :: .fetchRows :: out.trace,
          .error ((Nat.repr out.errors).data ++ sl " key(s) failed to rotate"))
      else (out.db, .connect :: .fetchRows :: out.trace, .ok ⟨out.success, out.errors⟩)

/-- Whitespace test used by the JavaScript trim of backup-restore.ts
(restricted to the ASCII whitespace characters that can occur in a
statement stream: space, tab, newline, carriage return, vertical tab, form
feed). -/
def jsWhitespaceChar (c : Char) : Bool :=
  c = ' ' || c = '\t' || c = '\n' || c = '\r' || c = Char.ofNat 11 || c = Char.ofNat 12

/-- Model of String.prototype.trim: strip whitespace from both ends. -/
def jsTrim (l : List Char) : List Char :=
  ((l.dropWhile jsWhitespaceChar).reverse.dropWhile jsWhitespaceChar).reverse

/-- Model of String.prototype.split on a single separator character:
the list of (possibly empty) segments, always nonempty. -/
def jsSplit (sep : Char) : List Char → List (List Char)
  | [] => [[]]
  | c :: rest =>
    if c = sep then [] :: jsSplit sep rest
    else
      match jsSplit sep rest with
      | seg :: out => (c :: seg) :: out
      | [] => [[c]]

/-- Statement parser of restoreDatabase: accumulate lines, skipping lines
that are blank or comment-only after trimming, and emit the trimmed
accumulator whenever the trimmed line ends with a semicolon. A trailing
accumulation without a terminator is dropped, as in the source. -/
def parseLoop : List (List Char) → List Char → List (List Char)
  | [], _ => []
  | line :: rest, current =>
    if (sl "--").isPrefixOf (jsTrim line) || (jsTrim line).isEmpty then
      parseLoop rest current
    else
      let cur2 := current ++ line ++ sl "\n"
      if (jsTrim line).getLast? = some ';' then jsTrim cur2 :: parseLoop rest []
      else parseLoop rest cur2

/-- Split the artifact into statements exactly as restoreDatabase does. -/
def parseStatements (content : List Char) : List (List Char) :=
  parseLoop (jsSplit '\n' content) []

/-- Model of String.prototype.includes: substring containment. -/
def jsIncludes (s sub : List Char) : Bool :=
  decide (sub <:+: s)

/-- Benign-conflict test of the restore replay loop: an error message that
mentions an already existing object or a duplicate key. -/
def benignError (m : List Char) : Bool :=
  jsIncludes m (sl "already exists") || jsIncludes m (sl "duplicate key")

/-- Replay loop of restoreDatabase: execute each statement through the
oracle, counting successes, counting only non-benign failures as errors,
and never stopping early. -/
def restoreLoop (execStmt : List Char → Except (List Char) Unit) :
    List (List Char) → Nat × Nat
  | [] => (0, 0)
  | stmt :: rest =>
    let out := restoreLoop execStmt rest
    match execStmt stmt with
    | .ok _ => (out.1 + 1, out.2)
    | .error m => if benignError m then out else (out.1, out.2 + 1)

/-- Result shape of restoreDatabase (RestoreResult in types.ts), with the
fields the pure-JavaScript path always fills in. -/
structure RestoreResult where
  success : Bool
  statements : Nat
  errors : Nat
deriving DecidableEq

/-- Model of the pure-JavaScript path of restoreDatabase on an existing
artifact: parse the content into statements, replay them through the
execution oracle, and return the result object built at the end of the
function. -/
def restoreDatabase (execStmt : List Char → Except (List Char) Unit)
    (content : List Char) : RestoreResult :=
  let out := restoreLoop execStmt (parseStatements content)
  ⟨true, out.1, out.2⟩

/-- JavaScript values as they reach the row serializer of getTableData:
null, numbers (integral values, rendered in decimal as the template literal
does), booleans, Date objects carrying their ISO-8601 rendering, and
everything else via its string conversion. -/
inductive JsValue where
  | nullV : JsValue
  | numV (n : Int) : JsValue
  | boolV (b : Bool) : JsValue
  | dateV (iso : List Char) : JsValue
  | strV (s : List Char) : JsValue
deriving DecidableEq

/-- Double every single quote, the replace of getTableData. -/
def doubleQuotes (s : List Char) : List Char :=
  s.flatMap fun c => if c = sqc then [sqc, sqc] else [c]

/-- Serialize one value exactly as the value mapper of getTableData. -/
def renderValue : JsValue → List Char
  | .nullV => sl "NULL"
  | .numV n => (Int.repr n).data
  | .boolV b => if b then sl "true" else sl "false"
  | .dateV iso => sqc :: (iso ++ [sqc])
  | .strV s => sqc :: (doubleQuotes s ++ [sqc])

/-- Model of Array.prototype.join with a separator string. -/
def jsJoin (sep : List Char) : List (List Char) → List Char
  | [] => []
  | [x] => x
  | x :: y :: rest => x ++ sep ++ jsJoin sep (y :: rest)

/-- Double-quoted identifier, as interpolated for table and column names. -/
def quoteIdent (name : List Char) : List Char :=
  '"' :: (name ++ ['"'])

/-- One INSERT statement of getTableData: quoted column names joined with a
comma and space, serialized values joined with a comma and space. -/
def insertStatement (tableName : List Char) (fields : List (List Char))
    (row : List JsValue) : List Char :=
  sl "INSERT INTO " ++ quoteIdent tableName ++ sl " (" ++
    jsJoin (sl ", ") (fields.map quoteIdent) ++ sl ") VALUES (" ++
    jsJoin (sl ", ") (row.map renderValue) ++ sl ");"

/-- Data block of getTableData: empty for a table without rows, otherwise
the INSERT statements joined by newlines. -/
def getTableDataText (tableName : List Char) (fields : List (List Char))
    (rows : List (List JsValue)) : List Char :=
  if rows.isEmpty then []
  else jsJoin (sl "\n") (rows.map (insertStatement tableName fields))

/-- Column metadata row returned by the information_schema query of
getTableSchema. Numeric and nullable fields keep the JavaScript null as
Option none. -/
structure ColumnInfo where
  column_name : List Char
  udt_name : List Char
  data_type : List Char
  character_maximum_length : Option Nat
  is_nullable : List Char
  column_default : Option (List Char)
deriving DecidableEq

/-- JavaScript truthiness of a nullable number: present and non-zero. -/
def jsTruthyNum : Option Nat → Bool
  | none => false
  | some n => n != 0

/-- JavaScript truthiness of a nullable string: present and nonempty. -/
def jsTruthyStr : Option (List Char) → Bool
  | none => false
  | some s => !s.isEmpty

/-- Auto-increment test of getTableSchema: a truthy default expression that
contains the substring nextval. -/
def hasNextval (c : ColumnInfo) : Bool :=
  jsTruthyStr c.column_default && jsIncludes (c.column_default.getD []) (sl "nextval")

/-- ASCII upper-casing, the model of String.prototype.toUpperCase on the
catalog type names (which are ASCII). -/
def jsToUpper (s : List Char) : List Char :=
  s.map Char.toUpper

/-- Decimal rendering of a number interpolated into a template literal. -/
def natLit (n : Nat) : List Char :=
  (Nat.repr n).data

/-- Type text chosen by getTableSchema for one column: SERIAL for
auto-increment columns, then the fixed udt_name table, then the upper-cased
catalog type with an optional length qualifier. -/
def mapDataType (c : ColumnInfo) : List Char :=
  if hasNextval c then sl "SERIAL"
  else if c.udt_name = sl "int4" then sl "INTEGER"
  else if c.udt_name = sl "int8" then sl "BIGINT"
  else if c.udt_name = sl "varchar" then
    if jsTruthyNum c.character_maximum_length then
      sl "VARCHAR(" ++ natLit (c.character_maximum_length.getD 0) ++ sl ")"
    else sl "VARCHAR"
  else if c.udt_name = sl "text" then sl "TEXT"
  else if c.udt_name = sl "bool" then sl "BOOLEAN"
  else if c.udt_name = sl "timestamp" then sl "TIMESTAMP"
  else if c.udt_name = sl "timestamptz" then sl "TIMESTAMPTZ"
  else
    let base := jsToUpper c.data_type
    if jsTruthyNum c.character_maximum_length then
      base ++ sl "(" ++ natLit (c.character_maximum_length.getD 0) ++ sl ")"
    else base

/-- Full column definition line of getTableSchema: quoted name and type,
then a DEFAULT clause for truthy non-auto-increment defaults, then NOT NULL
for non-nullable columns whose chosen type is not SERIAL. -/
def mapColumn (c : ColumnInfo) : List Char :=
  let dataType := mapDataType c
  let d1 := quoteIdent c.column_name ++ [' '] ++ dataType
  let d2 :=
    if jsTruthyStr c.column_default && !hasNextval c then
      d1 ++ sl " DEFAULT " ++ c.column_default.getD []
    else d1
  if c.is_nullable == sl "NO" && dataType != sl "SERIAL" then d2 ++ sl " NOT NULL"
  else d2

/-- CREATE TABLE statement assembled by getTableSchema: the column
definitions joined with comma, newline and two spaces, inside a multi-line
statement. -/
def getTableSchemaText (tableName : List Char) (cols : List ColumnInfo) : List Char :=
  sl "CREATE TABLE IF NOT EXISTS " ++ quoteIdent tableName ++ sl " (\n  " ++
    jsJoin (sl ",\n  ") (cols.map mapColumn) ++ sl "\n);"

/-- ADD PRIMARY KEY statement emitted when the table has primary-key
columns. -/
def alterPkStatement (tableName : List Char) (pkCols : List (List Char)) : List Char :=
  sl "ALTER TABLE " ++ quoteIdent tableName ++ sl " ADD PRIMARY KEY (" ++
    jsJoin (sl ", ") (pkCols.map quoteIdent) ++ sl ");"

/-- Input of the snapshot writer for one table: its name, introspected
columns, primary-key column names when the table has any, and its data as
field names plus rows of values. -/
structure BackupTable where
  tableName : List Char
  cols : List ColumnInfo
  pk : Option (List (List Char))
  fields : List (List Char)
  rows : List (List JsValue)

/-- Entries pushed for one table by the backup loop: comment, drop,
schema, blank, then the primary-key block when present and the data block
when nonempty, each followed by a blank entry. -/
def tableLines (t : BackupTable) : List (List Char) :=
  [sl "-- Table: " ++ t.tableName,
   sl "DROP TABLE IF EXISTS " ++ quoteIdent t.tableName ++ sl " CASCADE;",
   getTableSchemaText t.tableName t.cols, []] ++
  (match t.pk with
   | some pkCols => [alterPkStatement t.tableName pkCols, []]
   | none => []) ++
  (let data := getTableDataText t.tableName t.fields t.rows
   if data.isEmpty then [] else [data, []])

/-- Provenance header entries pushed before the per-table blocks. -/
def headerLines (timestamp : List Char) : List (List Char) :=
  [sl "-- VCKit Database Backup",
   sl "-- Generated: " ++ timestamp,
   sl "-- Tool: vckit-db-tools", [],
   sl "SET client_encoding = " ++ [sqc] ++ sl "UTF8" ++ [sqc] ++ sl ";", []]

/-- Complete entry buffer of the pure-JavaScript backup path. -/
def buildBackupLines (timestamp : List Char) (tables : List BackupTable) :
    List (List Char) :=
  headerLines timestamp ++ tables.flatMap tableLines

/-- Artifact content: the entry buffer joined with newlines, exactly the
string passed to writeFileSync. -/
def backupContent (timestamp : List Char) (tables : List BackupTable) : List Char :=
  jsJoin (sl "\n") (buildBackupLines timestamp tables)

/-- Size and line fields of the BackupResult returned by the
pure-JavaScript path of backupDatabase. -/
structure BackupResult where
  size : Nat
  lines : Nat
deriving DecidableEq

/-- Byte size of the written artifact: UTF-8 length of the content handed
to writeFileSync, which is what statSync reports back. -/
def utf8ByteSize (content : List Char) : Nat :=
  (content.map Char.utf8Size).sum

/-- Model of the result computation of backupDatabase: the size comes from
the written content, the lines field is the length of the entry buffer. -/
def backupRun (timestamp : List Char) (tables : List BackupTable) : BackupResult :=
  ⟨utf8ByteSize (backupContent timestamp tables),
   (buildBackupLines timestamp tables).length⟩

/-- Number of text lines of a string: one more than its newline count,
that is the number of segments split on the newline character. -/
def textLineCount (content : List Char) : Nat :=
  (jsSplit '\n' content).length

/-- Fixed-width byte encoding of one character (three bytes, big-endian
codepoint), used by the concrete library instance below. -/
def charBytes (c : Char) : List Byte :=
  [⟨c.toNat / 65536, by
      have h : c.toNat < 55296 ∨ (57343 < c.toNat ∧ c.toNat < 1114112) := c.valid
      omega⟩,
   ⟨c.toNat / 256 % 256, by omega⟩,
   ⟨c.toNat % 256, by omega⟩]

/-- Concrete injective string-to-bytes encoding for the library instance. -/
def idUtf8Encode (s : List Char) : List Byte :=
  s.flatMap charBytes

/-- Concrete decoding, the left inverse of idUtf8Encode. -/
def idUtf8Decode : List Byte → List Char
  | b0 :: b1 :: b2 :: rest =>
    Char.ofNat (b0.val * 65536 + b1.val * 256 + b2.val) :: idUtf8Decode rest
  | _ => []

/-- Self-delimiting key tag: each key byte prefixed with one, closed with a
zero, so that distinct keys have tags of which neither extends the other
inside a sealed box. -/
def tagEnc : List Byte → List Byte
  | [] => [0]
  | b :: t => 1 :: b :: tagEnc t

/-- Concrete sealing function of the library instance: tag the key, prepend
it to the message. -/
def idSecretbox (m _n k : List Byte) : List Byte :=
  tagEnc k ++ m

/-- Concrete opening function of the library instance: succeed exactly when
the box starts with the tag of the presented key. -/
def idOpen (c _n k : List Byte) : Option (List Byte) :=
  if tagEnc k <+: c then some (c.drop (tagEnc k).length) else none

/-- Concrete instance of the library contract, showing the NaclModel laws
are satisfiable; theorems quantified over every NaclModel are instantiated
with it in their witnesses. -/
def idModel : NaclModel where
  secretbox := idSecretbox
  secretboxOpen := idOpen
  utf8Encode := idUtf8Encode
  utf8Decode := idUtf8Decode
  open_box := by
    intro m n k
    simp only [idOpen, idSecretbox]
    rw [if_pos (List.prefix_append _ _), List.drop_left]
  open_wrong_key := by
    have aux : ∀ (a b m2 : List Byte), tagEnc a <+: tagEnc b ++ m2 → a = b := by
      intro a
      induction a with
      | nil =>
        intro b m2 h
        cases b with
        | nil => rfl
        | cons y u =>
          exfalso
          rcases h with ⟨s, hs⟩
          simp only [tagEnc, List.cons_append, List.nil_append] at hs
          injection hs with h1 h2
          exact absurd h1 (by decide)
      | cons x t ih =>
        intro b m2 h
        cases b with
        | nil =>
          exfalso
          rcases h with ⟨s, hs⟩
          simp only [tagEnc, List.cons_append, List.nil_append] at hs
          injection hs with h1 h2
          exact absurd h1 (by decide)
        | cons y u =>
          rcases h with ⟨s, hs⟩
          simp only [tagEnc, List.cons_append] at hs
          injection hs with h1 h2
          injection h2 with h2a h2b
          rw [h2a, ih u m2 ⟨s, h2b⟩]
    intro m n k k2 hne
    simp only [idOpen, idSecretbox]
    rw [if_neg fun hpre => hne (aux k2 k m hpre).symm]
  utf8_roundtrip := by
    intro s
    induction s with
    | nil => rfl
    | cons c rest ih =>
      simp only [idUtf8Encode, List.flatMap_cons] at *
      rw [charBytes]
      simp only [List.cons_append, List.nil_append, List.append_eq, idUtf8Decode]
      rw [ih]
      have hval : c.toNat / 65536 * 65536 + c.toNat / 256 % 256 * 256 + c.toNat % 256
          = c.toNat := by omega
      rw [hval, Char.ofNat_toNat]

theorem hexDigVal_hexDigitChar : ∀ (v : Fin 16),
    hexDigVal (hexDigitChar v.val) = some v := by
  decide

theorem hexDecode_cons (c1 c2 : Char) (rest : List Char) (h l : Fin 16)
    (h1 : hexDigVal c1 = some h) (h2 : hexDigVal c2 = some l) :
    hexDecode (c1 :: c2 :: rest) =
      ⟨h.val * 16 + l.val, by have := h.isLt; have := l.isLt; omega⟩ :: hexDecode rest := by
  simp only [hexDecode, h1, h2]

theorem hexDecode_hexEncode (bs : List Byte) : hexDecode (hexEncode bs) = bs := by
  induction bs with
  | nil => rfl
  | cons b t ih =>
    have hb := b.isLt
    simp only [hexEncode, List.flatMap_cons, List.cons_append, List.nil_append,
      List.append_eq] at *
    rw [hexDecode_cons _ _ _ ⟨b.val / 16, by omega⟩ ⟨b.val % 16, by omega⟩
      (hexDigVal_hexDigitChar _) (hexDigVal_hexDigitChar _)]
    congr 1
    exact Fin.ext (by simp; omega)

/-- C1: for every plaintext string P, every valid 64-hex-character key K and
every 24-byte nonce, decrypting the output of encrypt(P) with a SecretBox
built from the same key returns P, for every library model satisfying the
secretbox contract. -/
theorem secretbox_encrypt_decrypt_roundtrip (L : NaclModel) (key : List Char)
    (_hk : isHex64 key = true) (nonce : List Byte) (hn : nonce.length = NONCE_BYTES)
    (msg : List Char) :
    SecretBox.decrypt L (SecretBox.ofHex key)
      (SecretBox.encrypt L (SecretBox.ofHex key) nonce msg) = .ok msg := by
  simp only [SecretBox.decrypt, SecretBox.encrypt, SecretBox.ofHex]
  rw [hexDecode_hexEncode]
  rw [show (nonce ++ L.secretbox (L.utf8Encode msg) nonce (hexDecode key)).drop NONCE_BYTES
      = L.secretbox (L.utf8Encode msg) nonce (hexDecode key) by rw [← hn]; exact List.drop_left _ _]
  rw [show (nonce ++ L.secretbox (L.utf8Encode msg) nonce (hexDecode key)).take NONCE_BYTES
      = nonce by rw [← hn]; exact List.take_left _ _]
  rw [L.open_box]
  show Except.ok (L.utf8Decode (L.utf8Encode msg)) = Except.ok msg
  rw [L.utf8_roundtrip]

/-- Witness for C1 at a concrete model, key, nonce and message. -/
theorem secretbox_encrypt_decrypt_roundtrip_witness :
    SecretBox.decrypt idModel (SecretBox.ofHex (List.replicate 64 'a'))
      (SecretBox.encrypt idModel (SecretBox.ofHex (List.replicate 64 'a'))
        (List.replicate 24 (0 : Byte)) (sl "hello")) = .ok (sl "hello") :=
  secretbox_encrypt_decrypt_roundtrip idModel (List.replicate 64 'a') (by decide)
    (List.replicate 24 (0 : Byte)) (by decide) (sl "hello")

/-- C2: decrypting a ciphertext produced under one valid key with a SecretBox
built from a different valid key (different as 256-bit key values, i.e. the
decoded key bytes differ) fails with the explicit decryption error, for every
library model satisfying the secretbox contract; no corrupted or truncated
plaintext is ever returned. -/
theorem secretbox_decrypt_wrong_key_fails (L : NaclModel) (k1 k2 : List Char)
    (_h1 : isHex64 k1 = true) (_h2 : isHex64 k2 = true)
    (hk : hexDecode k1 ≠ hexDecode k2) (nonce : List Byte)
    (hn : nonce.length = NONCE_BYTES) (msg : List Char) :
    SecretBox.decrypt L (SecretBox.ofHex k2)
      (SecretBox.encrypt L (SecretBox.ofHex k1) nonce msg) =
      .error (sl "Decryption failed - wrong key or corrupted data") := by
  simp only [SecretBox.decrypt, SecretBox.encrypt, SecretBox.ofHex]
  rw [hexDecode_hexEncode]
  rw [show (nonce ++ L.secretbox (L.utf8Encode msg) nonce (hexDecode k1)).drop NONCE_BYTES
      = L.secretbox (L.utf8Encode msg) nonce (hexDecode k1) by rw [← hn]; exact List.drop_left _ _]
  rw [show (nonce ++ L.secretbox (L.utf8Encode msg) nonce (hexDecode k1)).take NONCE_BYTES
      = nonce by rw [← hn]; exact List.take_left _ _]
  rw [L.open_wrong_key _ _ _ _ hk]

/-- Witness for C2 at a concrete model, two concrete distinct keys, a
concrete nonce and message. -/
theorem secretbox_decrypt_wrong_key_fails_witness :
    SecretBox.decrypt idModel (SecretBox.ofHex (List.replicate 64 'b'))
      (SecretBox.encrypt idModel (SecretBox.ofHex (List.replicate 64 'a'))
        (List.replicate 24 (0 : Byte)) (sl "hello")) =
      .error (sl "Decryption failed - wrong key or corrupted data") :=
  secretbox_decrypt_wrong_key_fails idModel (List.replicate 64 'a')
    (List.replicate 64 'b') (by decide) (by decide) (by decide)
    (List.replicate 24 (0 : Byte)) (by decide) (sl "hello")

/-- C3: when the old key or the new key fails the 64-hex-character format
check, rotateEncryptionKey throws the corresponding key-format error with an
empty effect trace (no connection, no fetch, no cryptographic work, no
update) and the stored records unchanged. -/
theorem rotate_invalid_key_fails_fast (L : NaclModel) (nonce : Nat → List Byte)
    (oldKey newKey : List Char) (db : List SecretRow)
    (h : isHex64 oldKey = false ∨ isHex64 newKey = false) :
    rotateEncryptionKey L nonce oldKey newKey db =
      (db, [],
        .error (if isHex64 oldKey = false then sl "OLD_KEY must be 64 hex characters"
          else sl "NEW_KEY must be 64 hex characters")) := by
  rcases h with h | h
  · simp [rotateEncryptionKey, h]
  · cases hol : isHex64 oldKey with
    | false => simp [rotateEncryptionKey, hol]
    | true => simp [rotateEncryptionKey, hol, h]

/-- Witness for C3 at a concrete malformed old key. -/
theorem rotate_invalid_key_fails_fast_witness :
    rotateEncryptionKey idModel (fun _ => []) (sl "zz") (sl "ok") [] =
      ([], [],
        .error (if isHex64 (sl "zz") = false then sl "OLD_KEY must be 64 hex characters"
          else sl "NEW_KEY must be 64 hex characters")) :=
  rotate_invalid_key_fails_fast idModel (fun _ => []) (sl "zz") (sl "ok") []
    (Or.inl (by decide))

/-- C6: the restore replay loop visits every parsed statement in file order;
a failure whose message contains the benign substrings is not counted, every
other failure is counted, and no failure stops the loop: the returned pair
is exactly (number of successful statements, number of non-benign
failures). -/
theorem restoreLoop_counts (execStmt : List Char → Except (List Char) Unit)
    (stmts : List (List Char)) :
    restoreLoop execStmt stmts =
      (stmts.countP fun s => match execStmt s with | .ok _ => true | .error _ => false,
       stmts.countP fun s => match execStmt s with
         | .ok _ => false
         | .error m => !benignError m) := by
  induction stmts with
  | nil => rfl
  | cons s rest ih =>
    simp only [restoreLoop, ih, List.countP_cons]
    cases hx : execStmt s with
    | ok u => simp [hx]
    | error m => cases hb : benignError m <;> simp [hx, hb]

/-- Counterexample to C5: a restore run whose single statement fails with a
non-benign error finishes with error count 1, yet the returned result still
carries success = true — the operation does not report failure to the
caller. -/
theorem restore_success_true_despite_errors :
    (restoreDatabase (fun _ => Except.error (sl "boom")) (sl "SELECT 1;")).errors = 1 ∧
    (restoreDatabase (fun _ => Except.error (sl "boom")) (sl "SELECT 1;")).success = true := by
  constructor <;> rfl

/-- C5 as amended: of the two batch operations, only rotation turns a
non-zero per-item error count into an overall failure (a thrown error);
restore always returns success = true and reports its failures only through
the errors count. -/
theorem batch_error_reporting :
    (∀ (execStmt : List Char → Except (List Char) Unit) (content : List Char),
      (restoreDatabase execStmt content).success = true) ∧
    (∀ (L : NaclModel) (nonce : Nat → List Byte) (oldKey newKey : List Char)
      (db : List SecretRow),
      isHex64 oldKey = true → isHex64 newKey = true → db ≠ [] →
      0 < (rotateLoop L (SecretBox.ofHex oldKey) (SecretBox.ofHex newKey) nonce 0 db db).errors →
      ∃ m, (rotateEncryptionKey L nonce oldKey newKey db).2.2 = Except.error m) := by
  constructor
  · intro execStmt content
    rfl
  · intro L nonce oldKey newKey db h1 h2 hne herr
    simp only [rotateEncryptionKey, h1, h2]
    rw [if_neg (by simp), if_neg (by simp), if_neg (by simpa [List.length_eq_zero] using hne),
      if_pos herr]
    exact ⟨_, rfl⟩

/-- C10: a returned (not thrown) rotation result always carries a zero error
count; the empty table short-circuits to success 0, errors 0 with no update
effect; and a run whose loop ends with a positive error count throws the
aggregated error after the whole loop ran, keeping the updates of the
successful records in the table it leaves behind. -/
theorem rotate_nonzero_errors_never_returned :
    (∀ (L : NaclModel) (nonce : Nat → List Byte) (oldKey newKey : List Char)
      (db d2 : List SecretRow) (tr : List DbEffect) (r : RotateKeyResult),
      rotateEncryptionKey L nonce oldKey newKey db = (d2, tr, Except.ok r) →
      r.errors = 0) ∧
    (∀ (L : NaclModel) (nonce : Nat → List Byte) (oldKey newKey : List Char),
      isHex64 oldKey = true → isHex64 newKey = true →
      rotateEncryptionKey L nonce oldKey newKey [] =
        ([], [.connect, .fetchRows], Except.ok ⟨0, 0⟩)) ∧
    (∀ (L : NaclModel) (nonce : Nat → List Byte) (oldKey newKey : List Char)
      (db : List SecretRow),
      isHex64 oldKey = true → isHex64 newKey = true → db ≠ [] →
      0 < (rotateLoop L (SecretBox.ofHex oldKey) (SecretBox.ofHex newKey) nonce 0 db db).errors →
      rotateEncryptionKey L nonce oldKey newKey db =
        ((rotateLoop L (SecretBox.ofHex oldKey) (SecretBox.ofHex newKey) nonce 0 db db).db,
          .connect :: .fetchRows ::
            (rotateLoop L (SecretBox.ofHex oldKey) (SecretBox.ofHex newKey) nonce 0 db db).trace,
          Except.error
            ((Nat.repr (rotateLoop L (SecretBox.ofHex oldKey) (SecretBox.ofHex newKey)
                nonce 0 db db).errors).data ++ sl " key(s) failed to rotate"))) := by
  refine ⟨?_, ?_, ?_⟩
  · intro L nonce oldKey newKey db d2 tr r h
    simp only [rotateEncryptionKey] at h
    split at h
    · simp [Prod.ext_iff] at h
    · split at h
      · simp [Prod.ext_iff] at h
      · split at h
        · simp only [Prod.ext_iff, Except.ok.injEq] at h
          rw [← h.2.2]
        · split at h
          · simp [Prod.ext_iff] at h
          · rename_i hlt
            simp only [Prod.ext_iff, Except.ok.injEq] at h
            rw [← h.2.2]
            show (rotateLoop L (SecretBox.ofHex oldKey) (SecretBox.ofHex newKey)
              nonce 0 db db).errors = 0
            omega
  · intro L nonce oldKey newKey h1 h2
    simp [rotateEncryptionKey, h1, h2]
  · intro L nonce oldKey newKey db h1 h2 hne herr
    simp only [rotateEncryptionKey, h1, h2]
    rw [if_neg (by simp), if_neg (by simp), if_neg (by simpa [List.length_eq_zero] using hne),
      if_pos herr]

theorem updateByAlias_map_rowAlias (db : List SecretRow) (a newHex : List Char) :
    (updateByAlias db a newHex).map SecretRow.rowAlias = db.map SecretRow.rowAlias := by
  simp only [updateByAlias, List.map_map]
  apply List.map_congr_left
  intro x _
  by_cases hx : x.rowAlias = a <;> simp [hx]

theorem updateByAlias_of_drop (db : List SecretRow) (i : Nat) (r : SecretRow)
    (rest : List SecretRow) (hnd : (db.map SecretRow.rowAlias).Nodup)
    (hdrop : db.drop i = r :: rest) (newHex : List Char) :
    updateByAlias db r.rowAlias newHex =
      db.take i ++ { r with privateKeyHex := newHex } :: rest := by
  have hsplit : db.take i ++ r :: rest = db := by
    conv_rhs => rw [← List.take_append_drop i db]
    rw [hdrop]
  have hnd2 : ((db.take i ++ r :: rest).map SecretRow.rowAlias).Nodup := by
    rw [hsplit]; exact hnd
  rw [List.map_append, List.map_cons] at hnd2
  rw [List.nodup_append] at hnd2
  obtain ⟨-, hcons, hdisj⟩ := hnd2
  rw [List.nodup_cons] at hcons
  have hA : ∀ x ∈ db.take i, x.rowAlias ≠ r.rowAlias := by
    intro x hx heq
    exact hdisj (List.mem_map_of_mem SecretRow.rowAlias hx)
      (by rw [heq]; exact List.mem_cons_self _ _)
  have hR : ∀ x ∈ rest, x.rowAlias ≠ r.rowAlias := by
    intro x hx heq
    exact hcons.1 (heq ▸ List.mem_map_of_mem SecretRow.rowAlias hx)
  calc updateByAlias db r.rowAlias newHex
      = updateByAlias (db.take i ++ r :: rest) r.rowAlias newHex := by rw [hsplit]
    _ = db.take i ++ { r with privateKeyHex := newHex } :: rest := by
        simp only [updateByAlias, List.map_append, List.map_cons, if_pos rfl]
        congr 1
        · rw [List.map_congr_left fun x hx => if_neg (hA x hx)]
          exact List.map_id _
        · congr 1
          rw [List.map_congr_left fun x hx => if_neg (hR x hx)]
          exact List.map_id _

theorem rotateLoop_spec (L : NaclModel) (ob nb : SecretBox) (nonce : Nat → List Byte)
    (pending : List SecretRow) :
    ∀ (i : Nat) (db : List SecretRow),
      (db.map SecretRow.rowAlias).Nodup → db.drop i = pending →
      rotateLoop L ob nb nonce i db pending =
        ⟨db.take i ++ (List.enumFrom i pending).map (fun p =>
            match processRow L ob nb (nonce p.1) p.2.privateKeyHex with
            | .ok newHex => { p.2 with privateKeyHex := newHex }
            | .error _ => p.2),
          (List.enumFrom i pending).filterMap (fun p =>
            match processRow L ob nb (nonce p.1) p.2.privateKeyHex with
            | .ok newHex => some (.update p.2.rowAlias newHex)
            | .error _ => none),
          (List.enumFrom i pending).countP (fun p =>
            match processRow L ob nb (nonce p.1) p.2.privateKeyHex with
            | .ok _ => true | .error _ => false),
          (List.enumFrom i pending).countP (fun p =>
            match processRow L ob nb (nonce p.1) p.2.privateKeyHex with
            | .ok _ => false | .error _ => true),
          (List.enumFrom i pending).filterMap (fun p =>
            match processRow L ob nb (nonce p.1) p.2.privateKeyHex with
            | .ok _ => none
            | .error m => some ⟨shortAlias p.2.rowAlias, m⟩)⟩ := by
  induction pending with
  | nil =>
    intro i db hnd hdrop
    have hlen : db.length ≤ i := List.drop_eq_nil_iff.mp hdrop
    simp [rotateLoop, List.take_of_length_le hlen]
  | cons r rest ih =>
    intro i db hnd hdrop
    have hi : i < db.length := by
      by_contra hh
      have h0 : db.drop i = [] := List.drop_eq_nil_iff.mpr (by omega)
      rw [hdrop] at h0
      exact absurd h0 (by simp)
    have htakelen : (db.take i).length = i := by
      rw [List.length_take]
      omega
    have hsplit : db.take i ++ r :: rest = db := by
      conv_rhs => rw [← List.take_append_drop i db]
      rw [hdrop]
    simp only [rotateLoop]
    cases hp : processRow L ob nb (nonce i) r.privateKeyHex with
    | ok newHex =>
      have hupd := updateByAlias_of_drop db i r rest hnd hdrop newHex
      have hnd2 : ((updateByAlias db r.rowAlias newHex).map SecretRow.rowAlias).Nodup := by
        rw [updateByAlias_map_rowAlias]; exact hnd
      have hdrop2 : (updateByAlias db r.rowAlias newHex).drop (i + 1) = rest := by
        rw [hupd, show i + 1 = (db.take i).length + 1 by rw [htakelen]]
        rw [List.drop_append]
        rfl
      have htake2 : (updateByAlias db r.rowAlias newHex).take (i + 1) =
          db.take i ++ [{ r with privateKeyHex := newHex }] := by
        rw [hupd, show i + 1 = (db.take i).length + 1 by rw [htakelen]]
        rw [List.take_append]
        rfl
      dsimp only
      rw [ih (i + 1) _ hnd2 hdrop2]
      simp [List.enumFrom_cons, List.map_cons, List.filterMap_cons, List.countP_cons,
        hp, htake2, List.append_assoc, List.cons_append, List.nil_append]
    | error m =>
      have hdrop2 : db.drop (i + 1) = rest := by
        have h1 : (db.drop i).drop 1 = db.drop (i + 1) := by
          rw [List.drop_drop]
        rw [← h1, hdrop]
        rfl
      have htake2 : db.take (i + 1) = db.take i ++ [r] := by
        conv_lhs => rw [← hsplit]
        rw [show i + 1 = (db.take i).length + 1 by rw [htakelen]]
        rw [List.take_append]
        rfl
      dsimp only
      rw [ih (i + 1) db hnd hdrop2]
      simp [List.enumFrom_cons, List.map_cons, List.filterMap_cons, List.countP_cons,
        hp, htake2, List.append_assoc, List.cons_append, List.nil_append]

/-- C4: when the fetched aliases are distinct, the rotation loop treats every
record independently: the final table re-encrypts exactly the rows whose
decrypt/re-encrypt/verify pipeline succeeded and leaves every failing row
unchanged, one UPDATE effect is emitted per succeeding row, the success and
error counters count exactly the succeeding and failing rows (so the loop
reached every record), and every failing row is reported with its shortened
alias and failure reason. -/
theorem rotate_per_record_independence (L : NaclModel) (ob nb : SecretBox)
    (nonce : Nat → List Byte) (db : List SecretRow)
    (hnd : (db.map SecretRow.rowAlias).Nodup) :
    rotateLoop L ob nb nonce 0 db db =
      ⟨db.enum.map (fun p =>
          match processRow L ob nb (nonce p.1) p.2.privateKeyHex with
          | .ok newHex => { p.2 with privateKeyHex := newHex }
          | .error _ => p.2),
        db.enum.filterMap (fun p =>
          match processRow L ob nb (nonce p.1) p.2.privateKeyHex with
          | .ok newHex => some (.update p.2.rowAlias newHex)
          | .error _ => none),
        db.enum.countP (fun p =>
          match processRow L ob nb (nonce p.1) p.2.privateKeyHex with
          | .ok _ => true | .error _ => false),
        db.enum.countP (fun p =>
          match processRow L ob nb (nonce p.1) p.2.privateKeyHex with
          | .ok _ => false | .error _ => true),
        db.enum.filterMap (fun p =>
          match processRow L ob nb (nonce p.1) p.2.privateKeyHex with
          | .ok _ => none
          | .error m => some ⟨shortAlias p.2.rowAlias, m⟩)⟩ := by
  have h := rotateLoop_spec L ob nb nonce db 0 db hnd (by simp)
  simpa [List.enum] using h

/-- Witness for C4 at a concrete model, boxes and two-row table with
distinct aliases. -/
theorem rotate_per_record_independence_witness :
    rotateLoop idModel (SecretBox.ofHex (List.replicate 64 'a'))
      (SecretBox.ofHex (List.replicate 64 'b')) (fun _ => List.replicate 24 (0 : Byte)) 0
      [⟨sl "a", sl "t", sl "00"⟩, ⟨sl "b", sl "t", sl "01"⟩]
      [⟨sl "a", sl "t", sl "00"⟩, ⟨sl "b", sl "t", sl "01"⟩] =
      ⟨(List.enum ([⟨sl "a", sl "t", sl "00"⟩, ⟨sl "b", sl "t", sl "01"⟩] : List SecretRow)).map (fun p =>
          match processRow idModel (SecretBox.ofHex (List.replicate 64 'a'))
              (SecretBox.ofHex (List.replicate 64 'b'))
              ((fun _ => List.replicate 24 (0 : Byte)) p.1) p.2.privateKeyHex with
          | .ok newHex => { p.2 with privateKeyHex := newHex }
          | .error _ => p.2),
        (List.enum ([⟨sl "a", sl "t", sl "00"⟩, ⟨sl "b", sl "t", sl "01"⟩] : List SecretRow)).filterMap (fun p =>
          match processRow idModel (SecretBox.ofHex (List.replicate 64 'a'))
              (SecretBox.ofHex (List.replicate 64 'b'))
              ((fun _ => List.replicate 24 (0 : Byte)) p.1) p.2.privateKeyHex with
          | .ok newHex => some (.update p.2.rowAlias newHex)
          | .error _ => none),
        (List.enum ([⟨sl "a", sl "t", sl "00"⟩, ⟨sl "b", sl "t", sl "01"⟩] : List SecretRow)).countP (fun p =>
          match processRow idModel (SecretBox.ofHex (List.replicate 64 'a'))
              (SecretBox.ofHex (List.replicate 64 'b'))
              ((fun _ => List.replicate 24 (0 : Byte)) p.1) p.2.privateKeyHex with
          | .ok _ => true | .error _ => false),
        (List.enum ([⟨sl "a", sl "t", sl "00"⟩, ⟨sl "b", sl "t", sl "01"⟩] : List SecretRow)).countP (fun p =>
          match processRow idModel (SecretBox.ofHex (List.replicate 64 'a'))
              (SecretBox.ofHex (List.replicate 64 'b'))
              ((fun _ => List.replicate 24 (0 : Byte)) p.1) p.2.privateKeyHex with
          | .ok _ => false | .error _ => true),
        (List.enum ([⟨sl "a", sl "t", sl "00"⟩, ⟨sl "b", sl "t", sl "01"⟩] : List SecretRow)).filterMap (fun p =>
          match processRow idModel (SecretBox.ofHex (List.replicate 64 'a'))
              (SecretBox.ofHex (List.replicate 64 'b'))
              ((fun _ => List.replicate 24 (0 : Byte)) p.1) p.2.privateKeyHex with
          | .ok _ => none
          | .error m => some ⟨shortAlias p.2.rowAlias, m⟩)⟩ :=
  rotate_per_record_independence idModel (SecretBox.ofHex (List.replicate 64 'a'))
    (SecretBox.ofHex (List.replicate 64 'b')) (fun _ => List.replicate 24 (0 : Byte))
    [⟨sl "a", sl "t", sl "00"⟩, ⟨sl "b", sl "t", sl "01"⟩] (by decide)

/-- Counterexample to C7: the spec's scenario string is not what the writer
produces for the row (id=1, name=O'Brien) of table t — the column list is
joined with a comma and a space, not a bare comma, so the artifact does not
contain the claimed statement text. -/
theorem insert_statement_not_spec_example :
    insertStatement (sl "t") [sl "id", sl "name"]
      [JsValue.numV 1, JsValue.strV (sl "O'Brien")] ≠
      sl "INSERT INTO \"t\" (\"id\",\"name\") VALUES (1, 'O''Brien');" := by
  decide

/-- C7 as amended: null renders as NULL, numbers and booleans render as
unquoted native literals, Date values render as single-quoted ISO text, and
every other value renders as single-quoted text whose only transformation is
that each embedded single quote is doubled (quote doubling distributes over
concatenation and leaves every other character alone); the scenario row
(id=1, name=O'Brien) yields the INSERT statement with the quote doubled and
a comma-space separator between the quoted column names. -/
theorem row_serialization_rules :
    (renderValue JsValue.nullV = sl "NULL") ∧
    (∀ n : Int, renderValue (JsValue.numV n) = (Int.repr n).data) ∧
    (∀ b : Bool, renderValue (JsValue.boolV b) = if b then sl "true" else sl "false") ∧
    (∀ iso : List Char, renderValue (JsValue.dateV iso) = [sqc] ++ iso ++ [sqc]) ∧
    (∀ s : List Char, renderValue (JsValue.strV s) = [sqc] ++ doubleQuotes s ++ [sqc]) ∧
    (∀ a b : List Char, doubleQuotes (a ++ b) = doubleQuotes a ++ doubleQuotes b) ∧
    (∀ c : Char, c ≠ sqc → doubleQuotes [c] = [c]) ∧
    (doubleQuotes [sqc] = [sqc, sqc]) ∧
    (insertStatement (sl "t") [sl "id", sl "name"]
      [JsValue.numV 1, JsValue.strV (sl "O'Brien")] =
      sl "INSERT INTO \"t\" (\"id\", \"name\") VALUES (1, 'O''Brien');") := by
  refine ⟨rfl, fun n => rfl, fun b => rfl, fun iso => rfl, fun s => rfl, ?_, ?_, ?_, ?_⟩
  · intro a b
    simp [doubleQuotes]
  · intro c hc
    simp [doubleQuotes, hc]
  · decide
  · decide

theorem jsSplit_ne_nil (sep : Char) (l : List Char) : jsSplit sep l ≠ [] := by
  cases l with
  | nil => simp [jsSplit]
  | cons c rest =>
    simp only [jsSplit]
    split
    · simp
    · split
      · simp
      · simp

theorem jsSplit_length (sep : Char) (l : List Char) :
    (jsSplit sep l).length = l.count sep + 1 := by
  induction l with
  | nil => rfl
  | cons c rest ih =>
    simp only [jsSplit]
    by_cases hc : c = sep
    · simp [hc, List.count_cons, ih]
    · rw [if_neg hc]
      cases hsp : jsSplit sep rest with
      | nil => exact absurd hsp (jsSplit_ne_nil sep rest)
      | cons seg out =>
        rw [hsp] at ih
        simp only [List.length_cons] at ih ⊢
        rw [List.count_cons]
        simp [hc]
        omega

theorem jsJoin_count (c : Char) (x : List Char) (rest : List (List Char)) :
    (jsJoin [c] (x :: rest)).count c =
      ((x :: rest).map fun l => l.count c).sum + rest.length := by
  induction rest generalizing x with
  | nil => simp [jsJoin]
  | cons y t ih =>
    show (x ++ [c] ++ jsJoin [c] (y :: t)).count c = _
    rw [List.count_append, List.count_append, ih y]
    simp [List.count_cons]
    omega

theorem textLineCount_jsJoin (ls : List (List Char)) (hne : ls ≠ []) :
    textLineCount (jsJoin (sl "\n") ls) =
      ls.length + (ls.map fun l => l.count '\n').sum := by
  cases ls with
  | nil => exact absurd rfl hne
  | cons x rest =>
    rw [textLineCount, jsSplit_length]
    rw [show sl "\n" = ['\n'] from rfl, jsJoin_count]
    simp
    omega

/-- Counterexample to C9: for a backup of one table with a single integer
column, the returned lines value is the number of entries in the internal
statement buffer (10), while the written file has 12 text lines, because
the CREATE TABLE entry spans three lines; the two numbers differ. -/
theorem backup_lines_not_text_lines :
    (backupRun (sl "2026-01-01T00:00:00.000Z")
        [⟨sl "t", [⟨sl "id", sl "int4", sl "integer", none, sl "YES", none⟩],
          none, [], []⟩]).lines ≠
      textLineCount (backupContent (sl "2026-01-01T00:00:00.000Z")
        [⟨sl "t", [⟨sl "id", sl "int4", sl "integer", none, sl "YES", none⟩],
          none, [], []⟩]) := by
  decide

/-- C9 as amended: the writer returns the byte size of the written content
and the length of its internal entry buffer; the file's text line count
equals that length plus the newlines embedded inside entries (the multi-line
CREATE TABLE and data blocks), so the returned lines value is a lower bound
of, and in general different from, the file's text line count. -/
theorem backup_result_lines_meaning (timestamp : List Char) (tables : List BackupTable) :
    (backupRun timestamp tables).lines = (buildBackupLines timestamp tables).length ∧
    (backupRun timestamp tables).size = utf8ByteSize (backupContent timestamp tables) ∧
    textLineCount (backupContent timestamp tables) =
      (buildBackupLines timestamp tables).length +
        ((buildBackupLines timestamp tables).map fun l => l.count '\n').sum ∧
    (backupRun timestamp tables).lines ≤ textLineCount (backupContent timestamp tables) := by
  have hne : buildBackupLines timestamp tables ≠ [] := by
    simp [buildBackupLines, headerLines]
  have h3 := textLineCount_jsJoin (buildBackupLines timestamp tables) hne
  refine ⟨rfl, rfl, h3, ?_⟩
  rw [show (backupRun timestamp tables).lines = (buildBackupLines timestamp tables).length
    from rfl, backupContent] at *
  omega

theorem mapDataType_ne_serial (c : ColumnInfo) (hnv : hasNextval c = false)
    (hdt : jsToUpper c.data_type ≠ sl "SERIAL") : mapDataType c ≠ sl "SERIAL" := by
  simp only [mapDataType, hnv, Bool.false_eq_true, if_false]
  split_ifs with h1 h2 h3 h4 h5 h6 h7 h8 h9
  · decide
  · decide
  · intro heq
    have hh : (sl "VARCHAR(" ++ natLit (c.character_maximum_length.getD 0) ++ sl ")").head?
        = some 'V' := rfl
    rw [heq] at hh
    exact absurd hh (by decide)
  · decide
  · decide
  · decide
  · decide
  · decide
  · intro heq
    have hh : (jsToUpper c.data_type ++ sl "(" ++ natLit (c.character_maximum_length.getD 0)
        ++ sl ")").getLast? = some ')' := by
      rw [show sl ")" = [')'] from rfl, List.getLast?_concat]
    rw [heq] at hh
    exact absurd hh (by decide)
  · exact hdt

/-- C8: the type-mapping rules of getTableSchema, for catalog-shaped column
metadata (a reported character length is positive, a present default
expression is nonempty, and the catalog type name never upper-cases to
SERIAL, as with information_schema data_type values): an auto-increment
default (containing nextval) maps the column to SERIAL with no DEFAULT
clause and no NOT NULL; otherwise the fixed udt_name table applies
(int4/int8/varchar with optional length/text/bool/timestamp/timestamptz to
INTEGER/BIGINT/VARCHAR/TEXT/BOOLEAN/TIMESTAMP/TIMESTAMPTZ), any other type
falls back to the upper-cased catalog name with a length qualifier when one
is present, a present default is emitted verbatim after DEFAULT, and a
non-nullable column gets NOT NULL. -/
theorem type_mapping_rules (c : ColumnInfo)
    (hlen : ∀ n ∈ c.character_maximum_length, 0 < n)
    (hdef : ∀ d ∈ c.column_default, d ≠ [])
    (hdt : jsToUpper c.data_type ≠ sl "SERIAL") :
    (hasNextval c = true →
      mapColumn c = quoteIdent c.column_name ++ [' '] ++ sl "SERIAL") ∧
    (hasNextval c = false →
      ((c.udt_name = sl "int4" → mapDataType c = sl "INTEGER") ∧
       (c.udt_name = sl "int8" → mapDataType c = sl "BIGINT") ∧
       (c.udt_name = sl "varchar" →
         (∀ n, c.character_maximum_length = some n →
            mapDataType c = sl "VARCHAR(" ++ natLit n ++ sl ")") ∧
         (c.character_maximum_length = none → mapDataType c = sl "VARCHAR")) ∧
       (c.udt_name = sl "text" → mapDataType c = sl "TEXT") ∧
       (c.udt_name = sl "bool" → mapDataType c = sl "BOOLEAN") ∧
       (c.udt_name = sl "timestamp" → mapDataType c = sl "TIMESTAMP") ∧
       (c.udt_name = sl "timestamptz" → mapDataType c = sl "TIMESTAMPTZ") ∧
       (c.udt_name ∉ [sl "int4", sl "int8", sl "varchar", sl "text", sl "bool",
          sl "timestamp", sl "timestamptz"] →
         (∀ n, c.character_maximum_length = some n →
            mapDataType c = jsToUpper c.data_type ++ sl "(" ++ natLit n ++ sl ")") ∧
         (c.character_maximum_length = none → mapDataType c = jsToUpper c.data_type)) ∧
       (mapColumn c = quoteIdent c.column_name ++ [' '] ++ mapDataType c ++
          (match c.column_default with
           | some d => sl " DEFAULT " ++ d
           | none => []) ++
          (if c.is_nullable = sl "NO" then sl " NOT NULL" else [])))) := by
  constructor
  · intro hnv
    have hser : mapDataType c = sl "SERIAL" := by simp [mapDataType, hnv]
    have hnodef : (jsTruthyStr c.column_default && !hasNextval c) = false := by
      simp [hnv]
    simp [mapColumn, hser, hnodef, hnv]
  · intro hnv
    refine ⟨?_, ?_, ?_, ?_, ?_, ?_, ?_, ?_, ?_⟩
    · intro h
      simp +decide [mapDataType, hnv, h]
    · intro h
      simp +decide [mapDataType, hnv, h]
    · intro h
      constructor
      · intro n hl
        have hn0 : n ≠ 0 := by
          have := hlen n (by rw [hl]; rfl)
          omega
        simp +decide [mapDataType, hnv, h, hl, jsTruthyNum, hn0]
      · intro hl
        simp +decide [mapDataType, hnv, h, hl, jsTruthyNum]
    · intro h
      simp +decide [mapDataType, hnv, h]
    · intro h
      simp +decide [mapDataType, hnv, h]
    · intro h
      simp +decide [mapDataType, hnv, h]
    · intro h
      simp +decide [mapDataType, hnv, h]
    · intro h
      simp only [List.mem_cons, List.mem_singleton, not_or] at h
      obtain ⟨h1, h2, h3, h4, h5, h6, h7, -⟩ := h
      constructor
      · intro n hl
        have hn0 : n ≠ 0 := by
          have := hlen n (by rw [hl]; rfl)
          omega
        simp [mapDataType, hnv, h1, h2, h3, h4, h5, h6, h7, hl, jsTruthyNum, hn0]
      · intro hl
        simp [mapDataType, hnv, h1, h2, h3, h4, h5, h6, h7, hl, jsTruthyNum]
    · have hser := mapDataType_ne_serial c hnv hdt
      cases hd : c.column_default with
      | none =>
        have hnotru : jsTruthyStr c.column_default = false := by simp [jsTruthyStr, hd]
        by_cases hnn : c.is_nullable = sl "NO"
        · simp [mapColumn, hnotru, hnn, hser, List.append_assoc]
        · simp [mapColumn, hnotru, hnn, List.append_assoc]
      | some d =>
        have hdne : d ≠ [] := hdef d (by rw [hd]; rfl)
        have htru : jsTruthyStr (some d) = true := by
          simp [jsTruthyStr, List.isEmpty_iff, hdne]
        by_cases hnn : c.is_nullable = sl "NO"
        · simp [mapColumn, hd, htru, hnv, hnn, hser, List.append_assoc]
        · simp [mapColumn, hd, htru, hnv, hnn, List.append_assoc]

/-- Witness for C8 at a concrete integer column. -/
theorem type_mapping_rules_witness :
    mapDataType ⟨sl "id", sl "int4", sl "integer", none, sl "NO", none⟩ = sl "INTEGER" :=
  ((type_mapping_rules ⟨sl "id", sl "int4", sl "integer", none, sl "NO", none⟩
      (by simp) (by simp) (by decide)).2 (by decide)).1 rfl
